import Mathlib

/-!
Verification of the BetclicLiteScraper repository against its specification.

The Python sources are shallowly embedded:
* JSON-like Python values (`dict` / `list` / scalars) become the mutual
  inductive `JVal` / `JList` / `JFields` (a `JFields` is the ordered field
  list of a Python `dict`, which preserves insertion order).
* Fallible Python expressions (subscripts, `len`, `int(...)`, attribute
  access) become `Except PyErr` computations, one constructor of `PyErr`
  per Python exception class that can occur.
* Functions of `betclic_json_simplifier.py`, `betclic_scraper.py`,
  `live_match_scraper.py` and `OpenAIHelper.py` are translated below,
  keeping their names and their exact evaluation order.
-/

mutual

/-- A Python/JSON value, as manipulated by the scraper. -/
inductive JVal where
  | null : JVal
  | bool (b : Bool) : JVal
  | num (n : Int) : JVal
  | str (s : String) : JVal
  | arr (elems : JList) : JVal
  | obj (fields : JFields) : JVal

/-- The elements of a Python list, in order. -/
inductive JList where
  | nil : JList
  | cons (hd : JVal) (tl : JList) : JList

/-- The fields of a Python dict, in insertion order (keys unique in practice;
lookups return the first binding, as a Python dict would). -/
inductive JFields where
  | nil : JFields
  | cons (key : String) (val : JVal) (tl : JFields) : JFields

end

deriving instance DecidableEq for JVal
deriving instance Repr for JVal

/-- Embed a Lean list of values as a Python list. -/
def toJList : List JVal → JList
  | [] => .nil
  | v :: vs => .cons v (toJList vs)

/-- Embed a Lean association list as the field list of a Python dict. -/
def toJFields : List (String × JVal) → JFields
  | [] => .nil
  | (k, v) :: kvs => .cons k v (toJFields kvs)

/-- Convenience constructor: a Python list value. -/
def jarr (vs : List JVal) : JVal := .arr (toJList vs)

/-- Convenience constructor: a Python dict value. -/
def jobj (kvs : List (String × JVal)) : JVal := .obj (toJFields kvs)

/-- First binding of a key in a dict, as Python `d[k]` / `d.get(k)` would find it. -/
def JFields.lookup (k : String) : JFields → Option JVal
  | .nil => none
  | .cons k' v tl => if k' = k then some v else JFields.lookup k tl

/-- Number of fields (`len` of a dict). -/
def JFields.length : JFields → Nat
  | .nil => 0
  | .cons _ _ tl => Nat.succ (JFields.length tl)

/-- Number of elements (`len` of a list). -/
def JList.length : JList → Nat
  | .nil => 0
  | .cons _ tl => Nat.succ (JList.length tl)

/-- Zero-based indexing into a Python list. -/
def JList.get? : JList → Nat → Option JVal
  | .nil, _ => none
  | .cons v _, 0 => some v
  | .cons _ tl, n + 1 => JList.get? tl n

/-- The Python exceptions the embedded code can raise. -/
inductive PyErr where
  | keyError (k : String) : PyErr
  | indexError : PyErr
  | typeError (msg : String) : PyErr
  | valueError (msg : String) : PyErr
  | attributeError (msg : String) : PyErr
deriving DecidableEq, Repr

/-- Python truthiness of a value (`bool(v)`): `None`, `False`, `0`, `""`,
`[]` and `{}` are falsy, everything else truthy. -/
def truthy : JVal → Bool
  | .null => false
  | .bool b => b
  | .num n => n ≠ 0
  | .str s => s ≠ ""
  | .arr .nil => false
  | .arr (.cons _ _) => true
  | .obj .nil => false
  | .obj (.cons _ _ _) => true

/-- Python `v.get(k, dflt)`: defined on dicts, raises `AttributeError`
on every other value. -/
def dictGet (v : JVal) (k : String) (dflt : JVal) : Except PyErr JVal :=
  match v with
  | .obj fs => .ok ((fs.lookup k).getD dflt)
  | _ => .error (.attributeError ("object has no attribute get: " ++ k))

/-- Python `v[k]` for a string key: key lookup on dicts (raising `KeyError`
when absent), `TypeError` on lists and scalars. -/
def subscript (v : JVal) (k : String) : Except PyErr JVal :=
  match v with
  | .obj fs =>
    match fs.lookup k with
    | some w => .ok w
    | none => .error (.keyError k)
  | .arr _ => .error (.typeError "list indices must be integers")
  | _ => .error (.typeError ("value is not subscriptable by " ++ k))

/-- Python `v[i]` for a non-negative integer index: list indexing (raising
`IndexError` out of range), `KeyError` on dicts (an int key is absent from a
string-keyed dict), one-character strings on strings, `TypeError` otherwise. -/
def indexNat (v : JVal) (i : Nat) : Except PyErr JVal :=
  match v with
  | .arr xs =>
    match xs.get? i with
    | some w => .ok w
    | none => .error .indexError
  | .obj _ => .error (.keyError (toString i))
  | .str s =>
    match s.data.get? i with
    | some c => .ok (.str (String.mk [c]))
    | none => .error .indexError
  | _ => .error (.typeError "value is not subscriptable")

/-- Python `len(v)`: defined on lists, dicts and strings, `TypeError` otherwise
(in particular on `None` and on numbers). -/
def pyLen (v : JVal) : Except PyErr Nat :=
  match v with
  | .arr xs => .ok xs.length
  | .obj fs => .ok fs.length
  | .str s => .ok s.length
  | _ => .error (.typeError "object has no len")

/-- Spaces Python `int(str)` strips around the literal. -/
def isPySpace (c : Char) : Bool :=
  c = ' ' || c = '\t' || c = '\n' || c = '\r' || c = '\x0b' || c = '\x0c'

/-- After the first digit of a Python int literal: further digits, with single
underscores allowed between digit groups (as Python `int("1_0")` accepts). -/
def parseDigitGroups : List Char → Nat → Option Nat
  | [], acc => some acc
  | '_' :: c :: cs, acc =>
    if c.isDigit then parseDigitGroups cs (acc * 10 + (c.toNat - 48)) else none
  | ['_'], _ => none
  | c :: cs, acc =>
    if c.isDigit then parseDigitGroups cs (acc * 10 + (c.toNat - 48)) else none

/-- An unsigned Python int literal: one digit, then `parseDigitGroups`. -/
def parsePyNat : List Char → Option Nat
  | c :: cs => if c.isDigit then parseDigitGroups cs (c.toNat - 48) else none
  | [] => none

/-- Python `int(s)` on a string: strip surrounding whitespace, optional sign,
decimal digits (ASCII model); anything else raises `ValueError`. -/
def pyStrToInt (s : String) : Except PyErr Int :=
  let t := ((s.data.dropWhile isPySpace).reverse.dropWhile isPySpace).reverse
  match t with
  | '+' :: rest =>
    match parsePyNat rest with
    | some n => .ok (n : Int)
    | none => .error (.valueError ("invalid literal for int: " ++ s))
  | '-' :: rest =>
    match parsePyNat rest with
    | some n => .ok (-(n : Int))
    | none => .error (.valueError ("invalid literal for int: " ++ s))
  | rest =>
    match parsePyNat rest with
    | some n => .ok (n : Int)
    | none => .error (.valueError ("invalid literal for int: " ++ s))

/-- Python `int(v)`: ints unchanged, bools as 0/1, strings parsed
(`ValueError` on failure), `TypeError` on `None`, lists and dicts. -/
def pyInt (v : JVal) : Except PyErr Int :=
  match v with
  | .num n => .ok n
  | .bool b => .ok (if b then 1 else 0)
  | .str s => pyStrToInt s
  | .null => .error (.typeError "int() argument must not be None")
  | .arr _ => .error (.typeError "int() argument must not be a list")
  | .obj _ => .error (.typeError "int() argument must not be a dict")

/-- Python `v // d` for an int divisor: floor division on ints and bools,
`TypeError` otherwise (floor division is what `//` performs on Python ints). -/
def pyFloorDiv (v : JVal) (d : Int) : Except PyErr Int :=
  match v with
  | .num n => .ok (Int.fdiv n d)
  | .bool b => .ok (Int.fdiv (if b then 1 else 0) d)
  | _ => .error (.typeError "unsupported operand types for floor division")

/-- Python `str(v)` as an f-string interpolates it. Scalars are rendered as
Python renders them; for lists and dicts (which never reach the URL builder on
real payloads, where both fragments are strings) the model keeps a bracketed
marker rather than reproducing `repr` punctuation. -/
def pyFragStr (v : JVal) : String :=
  match v with
  | .str s => s
  | .num n => toString n
  | .bool true => "True"
  | .bool false => "False"
  | .null => "None"
  | .arr _ => "[...]"
  | .obj _ => "\x7b...\x7d"

/-! ### URL handling (`MatchProcessor.clean_and_combine_urls`)

The Python code is
`re.sub` with pattern stripping every character outside `\w:/.-`, then
`urlunparse(urlparse(stripped)._replace(path=quote(urlparse(combined).path)))`.
`urlparse` / `urlunparse` / `quote` are modelled below for the absolute
`https://` URLs this code builds. The character classes (`\w`, the quote-safe
set) are modelled on ASCII text; Python extends `\w` and UTF-8 quoting to
non-ASCII characters, which is why the URL theorems carry an all-ASCII
hypothesis. -/

/-- A character kept by `re.sub(r'[^\w:/.-]', '', _)` (ASCII): word characters
plus `:` `/` `.` `-`. -/
def pyWordSafeChar (c : Char) : Bool :=
  c.isAlphanum || c = '_' || c = ':' || c = '/' || c = '.' || c = '-'

/-- `re.sub(r'[^\w:/.-]', '', s)`: drop every disallowed character. -/
def pySubStrip (s : List Char) : List Char := s.filter pyWordSafeChar

/-- The six components `urlparse` returns. -/
structure UrlParts where
  scheme : List Char
  netloc : List Char
  path : List Char
  params : List Char
  query : List Char
  frag : List Char
deriving DecidableEq, Repr

/-- Split at the first occurrence of a character: the part before it, and
(when it occurs) the part after it. Models `str.split(c, 1)`. -/
def splitOnFirst (c : Char) : List Char → List Char × Option (List Char)
  | [] => ([], none)
  | x :: xs =>
    if x = c then ([], some xs)
    else
      match splitOnFirst c xs with
      | (l, r) => (x :: l, r)

/-- Split a string into everything up to and including its last `/`, and the
final segment after it (the whole string when it has no `/`). -/
def lastSegSplit : List Char → List Char × List Char
  | [] => ([], [])
  | c :: cs =>
    if '/' ∈ cs then
      match lastSegSplit cs with
      | (pre, seg) => (c :: pre, seg)
    else if c = '/' then ([c], cs)
    else ([], c :: cs)

/-- `urlparse` splitting of `;params` out of the path: only when a `;` occurs,
and (when the path has a `/`) only a `;` in the last segment counts. -/
def splitparams (s : List Char) : List Char × List Char :=
  if ';' ∈ s then
    if '/' ∈ s then
      match splitOnFirst ';' (lastSegSplit s).2 with
      | (_, none) => (s, [])
      | (sa, some sb) => ((lastSegSplit s).1 ++ sa, sb)
    else
      match splitOnFirst ';' s with
      | (_, none) => (s, [])
      | (sa, some sb) => (sa, sb)
  else (s, [])

/-- A character that does not end the netloc (`urlsplit` stops the host at the
first `/`, `?` or `#`). -/
def notNetlocEnd (c : Char) : Bool := !(c = '/' || c = '?' || c = '#')

/-- `urllib.parse.urlparse`, modelled for the absolute `https://...` URLs this
program constructs; other shapes (unreachable from `clean_and_combine_urls`)
fall back to an all-path result. -/
def pyUrlparse (url : List Char) : UrlParts :=
  match url with
  | 'h' :: 't' :: 't' :: 'p' :: 's' :: ':' :: '/' :: '/' :: rest =>
    let netloc := rest.takeWhile notNetlocEnd
    let after := rest.dropWhile notNetlocEnd
    let (beforeFrag, fragOpt) := splitOnFirst '#' after
    let (beforeQuery, queryOpt) := splitOnFirst '?' beforeFrag
    let (path, params) := splitparams beforeQuery
    { scheme := "https".data, netloc := netloc, path := path, params := params,
      query := queryOpt.getD [], frag := fragOpt.getD [] }
  | _ => { scheme := [], netloc := [], path := url, params := [], query := [], frag := [] }

/-- `urllib.parse.urlunparse`: reassemble the six components. -/
def pyUrlunparse (p : UrlParts) : List Char :=
  let url := if p.params ≠ [] then p.path ++ ';' :: p.params else p.path
  let url :=
    if p.netloc ≠ [] ∨ (url ≠ [] ∧ url.take 2 = ['/', '/']) then
      '/' :: '/' :: (p.netloc ++ (if url ≠ [] ∧ url.take 1 ≠ ['/'] then '/' :: url else url))
    else url
  let url := if p.scheme ≠ [] then p.scheme ++ ':' :: url else url
  let url := if p.query ≠ [] then url ++ '?' :: p.query else url
  if p.frag ≠ [] then url ++ '#' :: p.frag else url

/-- A character `urllib.parse.quote(_, safe='/')` leaves unescaped:
letters, digits, `_` `.` `-` `~` and the safe character `/`. -/
def quoteSafeChar (c : Char) : Bool :=
  c.isAlphanum || c = '_' || c = '.' || c = '-' || c = '~' || c = '/'

/-- Upper-case hexadecimal digit, as `quote` uses in escapes. -/
def hexDigitUpper (n : Nat) : Char :=
  if n < 10 then Char.ofNat (48 + n) else Char.ofNat (55 + n)

/-- `quote` on one (ASCII) character: itself when safe, a `%XX` escape else. -/
def pyQuoteChar (c : Char) : List Char :=
  if quoteSafeChar c then [c]
  else ['%', hexDigitUpper (c.toNat / 16 % 16), hexDigitUpper (c.toNat % 16)]

/-- `urllib.parse.quote(s, safe='/')` on ASCII text. -/
def pyQuote (s : List Char) : List Char := (s.map pyQuoteChar).flatten

/-- `MatchProcessor.clean_and_combine_urls`: build
`https://www.betclic.pt/{competition_url}/{match_url}`, strip disallowed
characters from the whole string, then reparse the stripped string replacing
its path by the percent-encoded path of the *original* combined string, and
reassemble. -/
def clean_and_combine_urls (competition_url match_url : String) : String :=
  let combined : List Char :=
    "https://www.betclic.pt/".data ++ competition_url.data ++ '/' :: match_url.data
  let stripped := pySubStrip combined
  let parts := pyUrlparse stripped
  let quoted := pyQuote (pyUrlparse combined).path
  String.mk (pyUrlunparse { parts with path := quoted })

/-! ### `MatchProcessor` (betclic_json_simplifier.py) -/

/-- `MatchProcessor.extract_odds`: the short-circuiting `and` chain
`raw.get("grouped_markets", []) and raw["grouped_markets"][0].get("markets", [])
and raw["grouped_markets"][0]["markets"][0].get("selections", None)`,
with Python evaluation order. -/
def extract_odds (raw : JVal) : Except PyErr JVal := do
  let a ← dictGet raw "grouped_markets" (jarr [])
  if !truthy a then
    return a
  else
    let gm ← subscript raw "grouped_markets"
    let gm0 ← indexNat gm 0
    let b ← dictGet gm0 "markets" (jarr [])
    if !truthy b then
      return b
    else
      let gm2 ← subscript raw "grouped_markets"
      let gm02 ← indexNat gm2 0
      let mks ← subscript gm02 "markets"
      let mk0 ← indexNat mks 0
      dictGet mk0 "selections" .null

/-- `MatchProcessor.extract_scoreboard`: the two score reads with their
`.get` default chains and `int(...)` coercions, and the scoreboard itself. -/
def extract_scoreboard (raw : JVal) : Except PyErr (Int × Int × JVal) := do
  let ld ← dictGet raw "live_data" (jobj [])
  let scoreboard ← dictGet ld "scoreboard" (jobj [])
  let cs1 ← dictGet scoreboard "current_score" (jobj [])
  let c1 ← dictGet cs1 "contestant1" (.num 0)
  let home_score ← pyInt c1
  let cs2 ← dictGet scoreboard "current_score" (jobj [])
  let c2 ← dictGet cs2 "contestant2" (.num 0)
  let away_score ← pyInt c2
  return (home_score, away_score, scoreboard)

/-- The `result` dict built by `MatchProcessor.calculate_result`. -/
structure CalcResult where
  home_score : Int
  away_score : Int
  winner : String
  current_minute : Int
deriving DecidableEq, Repr

/-- `MatchProcessor.calculate_result`: winner from the score comparison and
`current_minute` from `scoreboard.get("elapsed_time", 0) // 60`. -/
def calculate_result (home_score away_score : Int) (scoreboard : JVal) :
    Except PyErr CalcResult := do
  let e ← dictGet scoreboard "elapsed_time" (.num 0)
  let current_minute ← pyFloorDiv e 60
  return { home_score := home_score, away_score := away_score,
           winner := if home_score > away_score then "home"
                     else if away_score > home_score then "away" else "draw",
           current_minute := current_minute }

/-- One odds entry of `process_match` for index `i ≥ 1`:
`odds[i][0].get("odds") if len(odds) > i and len(odds[i]) > 0 else None`
(note the unguarded `len(odds)`, which raises on `None`). -/
def odds_entry (odds : JVal) (i : Nat) : Except PyErr JVal := do
  let l ← pyLen odds
  if i < l then
    let oi ← indexNat odds i
    let li ← pyLen oi
    if 0 < li then
      let oi2 ← indexNat odds i
      let oi0 ← indexNat oi2 0
      dictGet oi0 "odds" .null
    else
      return .null
  else
    return .null

/-- The `home_win` odds entry of `process_match`:
`odds[0][0].get("odds") if odds and len(odds) > 0 and len(odds[0]) > 0 else None`
(this one is guarded by the truthiness of `odds`). -/
def odds_home_entry (odds : JVal) : Except PyErr JVal := do
  if truthy odds then odds_entry odds 0 else return .null

/-- The simplified match record `process_match` builds, field for field. -/
structure CanonicalMatch where
  match_id : JVal
  competition_name : JVal
  competition_country : JVal
  competition_sport : JVal
  competition_round : JVal
  teams_home : JVal
  teams_away : JVal
  datetime : JVal
  odds_home_win : JVal
  odds_draw : JVal
  odds_away_win : JVal
  result : CalcResult
  is_live : JVal
  url : String
deriving DecidableEq, Repr

/-- `MatchProcessor.process_match`, in Python evaluation order: the two
required URL fragments (plain subscripts, so a missing one raises `KeyError`),
URL combination, odds, scoreboard, result, then the output dict whose entries
are evaluated top to bottom (defensive `.get` chains for the optional fields,
plain subscripts for `contestants[0]["name"]` / `contestants[1]["name"]`). -/
def process_match (raw : JVal) : Except PyErr CanonicalMatch := do
  let comp ← subscript raw "competition"
  let competition_url ← subscript comp "relative_desktop_url"
  let match_url ← subscript raw "relative_desktop_url"
  let combined_url := clean_and_combine_urls (pyFragStr competition_url) (pyFragStr match_url)
  let odds ← extract_odds raw
  let (home_score, away_score, scoreboard) ← extract_scoreboard raw
  let result ← calculate_result home_score away_score scoreboard
  let match_id ← dictGet raw "id" .null
  let c1 ← dictGet raw "competition" (jobj [])
  let competition_name ← dictGet c1 "name" .null
  let c2 ← dictGet raw "competition" (jobj [])
  let country ← dictGet c2 "country" (jobj [])
  let competition_country ← dictGet country "code" .null
  let c3 ← dictGet raw "competition" (jobj [])
  let sport ← dictGet c3 "sport" (jobj [])
  let competition_sport ← dictGet sport "name" .null
  let c4 ← dictGet raw "competition" (jobj [])
  let info ← dictGet c4 "info" (jobj [])
  let competition_round ← dictGet info "round_name" .null
  let contestants ← subscript raw "contestants"
  let ct0 ← indexNat contestants 0
  let teams_home ← subscript ct0 "name"
  let ct1 ← indexNat contestants 1
  let teams_away ← subscript ct1 "name"
  let datetime ← dictGet raw "date" .null
  let odds_home_win ← odds_home_entry odds
  let odds_draw ← odds_entry odds 1
  let odds_away_win ← odds_entry odds 2
  let is_live ← dictGet raw "is_live" .null
  return { match_id := match_id, competition_name := competition_name,
           competition_country := competition_country,
           competition_sport := competition_sport,
           competition_round := competition_round,
           teams_home := teams_home, teams_away := teams_away,
           datetime := datetime, odds_home_win := odds_home_win,
           odds_draw := odds_draw, odds_away_win := odds_away_win,
           result := result, is_live := is_live, url := combined_url }

/-- `MatchProcessor.process_live_matches`: keep the matches whose `is_live`
field is truthy and process each; an exception in any `process_match`
propagates (there is no handler in the loop). -/
def process_live_matches (data : List JVal) : Except PyErr (List CanonicalMatch) :=
  match data with
  | [] => .ok []
  | raw :: rest => do
    if truthy ((match raw with
                | .obj fs => (fs.lookup "is_live").getD .null
                | _ => .null)) then
      let m ← process_match raw
      let ms ← process_live_matches rest
      return m :: ms
    else
      process_live_matches rest

/-- Python dict assignment `d[k] = v` on a string-to-string dict: replace in
place when the key exists (keeping its position), append otherwise. -/
def dictInsert (k v : String) : List (String × String) → List (String × String)
  | [] => [(k, v)]
  | (k', v') :: tl => if k' = k then (k', v) :: tl else (k', v') :: dictInsert k v tl

/-- Lookup in a string-to-string dict. -/
def lookupStr (k : String) : List (String × String) → Option String
  | [] => none
  | (k', v) :: tl => if k' = k then some v else lookupStr k tl

/-- One iteration of the `get_match_urls` loop body: the
`{contestants[0][name]}-{contestants[1][name]}` key and the combined URL of
one raw match, with the subscripts in source order (the URL fragments are
read, and can raise, before the contestant names). -/
def match_url_entry (raw : JVal) : Except PyErr (String × String) := do
  let comp ← subscript raw "competition"
  let competition_url ← subscript comp "relative_desktop_url"
  let match_url ← subscript raw "relative_desktop_url"
  let combined_url := clean_and_combine_urls (pyFragStr competition_url) (pyFragStr match_url)
  let contestants ← subscript raw "contestants"
  let ct0 ← indexNat contestants 0
  let n0 ← subscript ct0 "name"
  let ct1 ← indexNat contestants 1
  let n1 ← subscript ct1 "name"
  return (pyFragStr n0 ++ "-" ++ pyFragStr n1, combined_url)

/-- Loop of `MatchProcessor.get_match_urls`: `urls[match_name] = combined_url`
for each raw match in order, starting from the accumulated dict. -/
def get_match_urls_from (acc : List (String × String)) :
    List JVal → Except PyErr (List (String × String))
  | [] => .ok acc
  | raw :: rest => do
    let e ← match_url_entry raw
    get_match_urls_from (dictInsert e.1 e.2 acc) rest

/-- `MatchProcessor.get_match_urls`: every match in the data (no `is_live`
filter), keyed by `{contestants[0][name]}-{contestants[1][name]}`, value the
combined URL; a later duplicate key overwrites the earlier entry. -/
def get_match_urls (data : List JVal) : Except PyErr (List (String × String)) :=
  get_match_urls_from [] data

/-! ### `betclic_scraper.py` -/

/-- `get_nested_dict_value`: walk the key path, descending only while the
current value is a dict containing the key; `None` (here `none`) otherwise.
Being a total Lean function, it can raise nothing. -/
def get_nested_dict_value (data : JVal) (path : List String) : Option JVal :=
  match path with
  | [] => some data
  | k :: ks =>
    match data with
    | .obj fs =>
      match fs.lookup k with
      | some v => get_nested_dict_value v ks
      | none => none
    | _ => none

/-- The key under which the live-games section sits (`BETCLIC_LIVE_GAMES_KEY`). -/
def BETCLIC_LIVE_GAMES_KEY : String := "1791897521"

/-- The path to the matches inside the live-games section (`BETCLIC_MATCHES_PATH`). -/
def BETCLIC_MATCHES_PATH : List String := ["b", "matches"]

/-- The observable outcome of one `scrape_betclic_matches` call: its return
value together with which (distinct) error was logged on the failure paths.
Each constructor corresponds to one `return None` site and its log line. -/
inductive ScrapeOutcome where
  | ok (found : JVal) : ScrapeOutcome
  | networkError (msg : String) : ScrapeOutcome
  | payloadNotFound : ScrapeOutcome
  | parseError (msg : String) : ScrapeOutcome
  | liveKeyMissing : ScrapeOutcome
  | structureMissing : ScrapeOutcome
  | unexpected (msg : String) : ScrapeOutcome
deriving DecidableEq, Repr

/-- `BetclicScraper.scrape_betclic_matches`. The HTTP fetch, the
BeautifulSoup lookup of the `ng-state` script tag and `json.loads` are
external effects, passed in as the fetch result, the tag finder and the JSON
parser; the branch structure below mirrors the Python control flow: network
failure, missing script tag, JSON parse failure, missing live-games key,
missing matches structure, and the final `len(matches_data)` log line whose
`TypeError` on an unsized value is swallowed by the generic handler. -/
def scrape_betclic_matches (fetched : Except String String)
    (findScript : String → Option String)
    (jsonLoads : String → Except String JVal) : ScrapeOutcome :=
  match fetched with
  | .error e => .networkError e
  | .ok html =>
    match findScript html with
    | none => .payloadNotFound
    | some payload =>
      match jsonLoads payload with
      | .error e => .parseError e
      | .ok json_data =>
        match json_data with
        | .obj fs =>
          match fs.lookup BETCLIC_LIVE_GAMES_KEY with
          | none => .liveKeyMissing
          | some live_games_data =>
            match get_nested_dict_value live_games_data BETCLIC_MATCHES_PATH with
            | none => .structureMissing
            | some matches_data =>
              match pyLen matches_data with
              | .ok _ => .ok matches_data
              | .error _ => .unexpected "len() failed on matches data"
        | _ => .liveKeyMissing

/-! ### `live_match_scraper.py` -/

mutual

/-- `LiveMatchScraper.find_grouped_markets`: collect the values under the key
`grouped_markets`; on a dict, iterate the fields in order, appending a matched
value (without descending into it) and recursing into every other value; on a
list, recurse into the elements in order; scalars contribute nothing. -/
def find_grouped_markets : JVal → List JVal
  | .obj fs => find_grouped_markets_fields fs
  | .arr xs => find_grouped_markets_list xs
  | _ => []

/-- The dict case of `find_grouped_markets`, field by field. -/
def find_grouped_markets_fields : JFields → List JVal
  | .nil => []
  | .cons k v tl =>
    (if k = "grouped_markets" then [v] else find_grouped_markets v)
      ++ find_grouped_markets_fields tl

/-- The list case of `find_grouped_markets`, element by element. -/
def find_grouped_markets_list : JList → List JVal
  | .nil => []
  | .cons v tl => find_grouped_markets v ++ find_grouped_markets_list tl

end

mutual

/-- Number of occurrences of the key `grouped_markets` anywhere in a value, at
any depth, including occurrences nested inside another occurrence. This is
the claimed search domain of C3 ("anywhere in the structure at any depth,
no limit on occurrence count"). -/
def count_grouped_markets_keys : JVal → Nat
  | .obj fs => count_grouped_markets_keys_fields fs
  | .arr xs => count_grouped_markets_keys_list xs
  | _ => 0

/-- Dict case of `count_grouped_markets_keys`: count a matching key and keep
counting inside its value and the remaining fields. -/
def count_grouped_markets_keys_fields : JFields → Nat
  | .nil => 0
  | .cons k v tl =>
    (if k = "grouped_markets" then 1 else 0) + count_grouped_markets_keys v
      + count_grouped_markets_keys_fields tl

/-- List case of `count_grouped_markets_keys`. -/
def count_grouped_markets_keys_list : JList → Nat
  | .nil => 0
  | .cons v tl => count_grouped_markets_keys v + count_grouped_markets_keys_list tl

end

/-! ### `OpenAIHelper.py` -/

/-- A `function_call` of a chat-completion message: its `arguments` string. -/
structure FunctionCallPart where
  arguments : String
deriving DecidableEq, Repr

/-- A chat-completion message: `function_call` may be absent (`None`). -/
structure CompletionMessage where
  function_call : Option FunctionCallPart
deriving DecidableEq, Repr

/-- One choice of a chat completion. -/
structure CompletionChoice where
  message : CompletionMessage
deriving DecidableEq, Repr

/-- A chat completion: its list of choices. -/
structure ChatCompletion where
  choices : List CompletionChoice
deriving DecidableEq, Repr

/-- `OpenAIHelper.raw2json`, after the API call: read
`completion.choices[0].message.function_call.arguments` inside `try` (an
empty choice list raises `IndexError`, an absent `function_call` raises
`AttributeError`; both are caught and leave `generated_json = None`), then
run `json.loads(generated_json)` outside any handler: on `None` that raises
`TypeError`, and a parse failure raises `JSONDecodeError` (a `ValueError`);
the JSON parser itself is an external effect, passed in. -/
def raw2json (completion : ChatCompletion)
    (jsonLoads : String → Except String JVal) : Except PyErr JVal :=
  let generated_json : Option String :=
    match completion.choices.head? with
    | none => none
    | some choice =>
      match choice.message.function_call with
      | none => none
      | some fc => some fc.arguments
  match generated_json with
  | none => .error (.typeError "the JSON object must be str, not NoneType")
  | some s =>
    match jsonLoads s with
    | .ok v => .ok v
    | .error e => .error (.valueError e)

/-! ### Claim-side reference definitions and concrete inputs -/

/-- An optional dict field: bound when present, simply skipped when absent. -/
def optField (k : String) (o : Option JVal) (rest : JFields) : JFields :=
  match o with
  | some v => .cons k v rest
  | none => rest

/-- A competition sub-dict whose defensively-read fields (`name`,
`country.code`, `sport.name`, `info.round_name`) are each optionally present,
and whose URL fragment is present. -/
def mkCompetition (cname ccode csport cround : Option JVal) (curl : String) : JVal :=
  .obj (optField "name" cname
    (optField "country" (ccode.map (fun c => jobj [("code", c)]))
      (optField "sport" (csport.map (fun s => jobj [("name", s)]))
        (optField "info" (cround.map (fun r => jobj [("round_name", r)]))
          (.cons "relative_desktop_url" (.str curl) .nil)))))

/-- A raw match whose defensively-read optional fields are each optionally
present and whose required fields (both URL fragments, both contestant names)
are present; `grouped_markets` and `live_data` are absent. -/
def mkRawMatch (mid cname ccode csport cround date ilive : Option JVal)
    (curl murl : String) (home away : JVal) : JVal :=
  .obj (optField "id" mid
    (.cons "competition" (mkCompetition cname ccode csport cround curl)
      (.cons "relative_desktop_url" (.str murl)
        (.cons "contestants" (jarr [jobj [("name", home)], jobj [("name", away)]])
          (optField "date" date
            (optField "is_live" ilive .nil))))))

/-- A raw match with all required fields present but the match URL fragment
(`relative_desktop_url` at top level) missing. -/
def rawMissingMatchUrl : JVal :=
  jobj [("competition", jobj [("relative_desktop_url", .str "liga-betclic-c32"),
                              ("name", .str "Liga")]),
        ("id", .num 7),
        ("contestants", jarr [jobj [("name", .str "Benfica")], jobj [("name", .str "Porto")]])]

/-- Base fields (required fields present, all defensive fields present) shared
by the odds-focused inputs. -/
def rawOddsBase : List (String × JVal) :=
  [("competition", jobj [("relative_desktop_url", .str "liga-betclic-c32")]),
   ("relative_desktop_url", .str "benfica-porto-m1"),
   ("contestants", jarr [jobj [("name", .str "Benfica")], jobj [("name", .str "Porto")]])]

/-- A selections array of length 2: index 0 and index 1 present, index 2
absent (two outcome groups, each with one selection carrying `odds`). -/
def selsLen2 : JVal :=
  jarr [jarr [jobj [("odds", JVal.num 15)]], jarr [jobj [("odds", JVal.num 32)]]]

/-- A raw match whose first grouped market carries the given selections value
under the key `selections`, or no `selections` key at all. -/
def mkRawWithSelections (sel : Option JVal) : JVal :=
  jobj (rawOddsBase ++
    [("grouped_markets",
      jarr [JVal.obj (.cons "markets"
        (jarr [JVal.obj (optField "selections" sel .nil)]) .nil)])])

/-- Embed a Lean list of selection groups — each group a list of selection
dicts, each dict a field list — as the selections array value. -/
def selectionsOf (sels : List (List (List (String × JVal)))) : JVal :=
  jarr (sels.map (fun group => jarr (group.map jobj)))

/-- C2 reference semantics, written from the (amended) claim: the outcome at
position `i` is the `odds` field of the first selection of group `i`, absent
whenever the group or its first selection or its `odds` field is missing. -/
def positional_odds (sels : List (List (List (String × JVal)))) (i : Nat) : JVal :=
  match sels.get? i with
  | none => .null
  | some group =>
    match group.head? with
    | none => .null
    | some sel0 => ((toJFields sel0).lookup "odds").getD .null

/-- The scoreboard value carrying optionally present contestant scores. -/
def scoreboardOf (c1 c2 : Option JVal) : JVal :=
  jobj [("current_score", .obj (optField "contestant1" c1 (optField "contestant2" c2 .nil)))]

/-- A raw match carrying a live scoreboard with optionally present scores. -/
def mkRawScore (c1 c2 : Option JVal) : JVal :=
  jobj [("live_data", jobj [("scoreboard", scoreboardOf c1 c2)])]

mutual

/-- C3 reference semantics, written from the claim: ALL values stored under
the key `grouped_markets` anywhere in the structure at any depth (including
occurrences nested inside another such value), depth-first, a matched value
before its own descendants, mapping entries before deeper recursion. -/
def all_grouped_markets : JVal → List JVal
  | .obj fs => all_grouped_markets_fields fs
  | .arr xs => all_grouped_markets_list xs
  | _ => []

/-- Dict case of `all_grouped_markets`: a matched value is collected and then
also searched inside. -/
def all_grouped_markets_fields : JFields → List JVal
  | .nil => []
  | .cons k v tl =>
    (if k = "grouped_markets" then v :: all_grouped_markets v else all_grouped_markets v)
      ++ all_grouped_markets_fields tl

/-- List case of `all_grouped_markets`. -/
def all_grouped_markets_list : JList → List JVal
  | .nil => []
  | .cons v tl => all_grouped_markets v ++ all_grouped_markets_list tl

end

mutual

/-- No value bound to the key `grouped_markets` anywhere in this value itself
contains the key again (no nested occurrence). All realistic Betclic payloads
satisfy this. -/
def nestFreeGM : JVal → Bool
  | .obj fs => nestFreeGM_fields fs
  | .arr xs => nestFreeGM_list xs
  | _ => true

/-- Dict case of `nestFreeGM`: a matched value must contain no further
occurrence of the key; other values are checked recursively. -/
def nestFreeGM_fields : JFields → Bool
  | .nil => true
  | .cons k v tl =>
    (if k = "grouped_markets" then count_grouped_markets_keys v = 0 else nestFreeGM v)
      && nestFreeGM_fields tl

/-- List case of `nestFreeGM`. -/
def nestFreeGM_list : JList → Bool
  | .nil => true
  | .cons v tl => nestFreeGM v && nestFreeGM_list tl

end

/-- A structure with the key `grouped_markets` nested directly inside a value
that is itself bound to `grouped_markets`. -/
def nestedGMInput : JVal :=
  jobj [("grouped_markets", jobj [("grouped_markets", .num 1)])]

/-- A structure with the key `grouped_markets` at depths 0, 2 and 5, in three
disjoint branches. -/
def depths025Input : JVal :=
  jobj [("grouped_markets", .num 100),
        ("x", jobj [("y", jobj [("grouped_markets", .num 102)])]),
        ("z", jobj [("a", jobj [("b", jobj [("c", jobj [("d",
              jobj [("grouped_markets", .num 105)])])])])])]

/-- `NestedReaches d ks w`: starting from `d` and successively indexing the
keys of `ks`, every step finds the current value to be a mapping containing
the key, and the walk ends at `w` (the claimed success condition of
`get_nested_dict_value`). -/
inductive NestedReaches : JVal → List String → JVal → Prop where
  | nil (d : JVal) : NestedReaches d [] d
  | step {fs : JFields} {k : String} {ks : List String} {v w : JVal} :
      fs.lookup k = some v → NestedReaches v ks w →
      NestedReaches (.obj fs) (k :: ks) w

/-- C4 reference semantics, written from the claim: concatenate the base and
the two fragments, strip every character outside `[A-Za-z0-9_:/.-]` from the
whole string FIRST, and then percent-encode the path component of that
stripped string, leaving its scheme and host untouched. -/
def claimed_clean_and_combine_urls (competition_url match_url : String) : String :=
  let combined : List Char :=
    "https://www.betclic.pt/".data ++ competition_url.data ++ '/' :: match_url.data
  let stripped := pySubStrip combined
  let parts := pyUrlparse stripped
  String.mk (pyUrlunparse { parts with path := pyQuote parts.path })

/-- A malformed model output: the completion has a choice, but its message
carries no `function_call` (as happens when the model answers in plain text
instead of calling the declared function). -/
def malformedCompletion : ChatCompletion :=
  { choices := [{ message := { function_call := none } }] }

/-- Two raw matches that produce the same `match_name` key (same contestant
names) with different URLs, the first live and the second not, plus a third
distinct non-live match: exercises the no-`is_live`-filter and the
overwriting of duplicate keys in `get_match_urls`. -/
def duplicateKeyData : List JVal :=
  [jobj [("competition", jobj [("relative_desktop_url", .str "liga-c32")]),
         ("relative_desktop_url", .str "benfica-porto-m1"),
         ("is_live", .bool true),
         ("contestants", jarr [jobj [("name", .str "Benfica")], jobj [("name", .str "Porto")]])],
   jobj [("competition", jobj [("relative_desktop_url", .str "taca-c40")]),
         ("relative_desktop_url", .str "benfica-porto-m2"),
         ("is_live", .bool false),
         ("contestants", jarr [jobj [("name", .str "Benfica")], jobj [("name", .str "Porto")]])],
   jobj [("competition", jobj [("relative_desktop_url", .str "liga-c32")]),
         ("relative_desktop_url", .str "braga-guimaraes-m3"),
         ("is_live", .bool false),
         ("contestants", jarr [jobj [("name", .str "Braga")], jobj [("name", .str "Guimaraes")]])]]

/-- The canonical match produced from the odds-focused inputs: base fields
absent (`null`), the two contestants, the combined URL, and the three odds
outcomes given as parameters. -/
def selsCanonical (hw dr aw : JVal) : CanonicalMatch :=
  { match_id := .null, competition_name := .null, competition_country := .null,
    competition_sport := .null, competition_round := .null,
    teams_home := .str "Benfica", teams_away := .str "Porto",
    datetime := .null,
    odds_home_win := hw, odds_draw := dr, odds_away_win := aw,
    result := { home_score := 0, away_score := 0, winner := "draw", current_minute := 0 },
    is_live := .null,
    url := clean_and_combine_urls "liga-betclic-c32" "benfica-porto-m1" }

/-- `BetclicScraper.get_live_match_urls`: a plain delegation to
`MatchProcessor(self.matches).get_match_urls()`. -/
def get_live_match_urls (data : List JVal) : Except PyErr (List (String × String)) :=
  get_match_urls data

/-- The successfully extracted (key, url) entries of the data, in order. -/
def okEntries (data : List JVal) : List (String × String) :=
  data.filterMap (fun m => (match_url_entry m).toOption)

/-- C10 reference semantics, written from the claim: the value of the LAST
entry with the given key (a later duplicate key overwrites an earlier one),
or `none` when no entry has the key. -/
def lastValueOf (k : String) : List (String × String) → Option String
  | [] => none
  | e :: es =>
    match lastValueOf k es with
    | some v => some v
    | none => if e.1 = k then some e.2 else none

/-! ## Theorems -/

/-- C8: for non-negative integer scores, `calculate_result` picks winner
`home` when `home_score > away_score`, `away` when `away_score > home_score`
and `draw` otherwise, and sets `current_minute` to `⌊elapsed_time / 60⌋` when
`elapsed_time` is present (as an integer) and to `0` when it is absent. -/
theorem calculate_result_spec (h a : Int) (e : Option Int) (rest : JFields)
    (hh : 0 ≤ h) (ha : 0 ≤ a) (hrest : rest.lookup "elapsed_time" = none) :
    calculate_result h a (.obj (optField "elapsed_time" (e.map JVal.num) rest)) =
      .ok { home_score := h, away_score := a,
            winner := if h > a then "home" else if a > h then "away" else "draw",
            current_minute := match e with | some t => Int.fdiv t 60 | none => 0 } := by
  cases e with
  | none =>
    simp only [calculate_result, optField, Option.map, dictGet, hrest]
    rfl
  | some t => rfl

/-- Witness for C8: the spec example scores 2-2 (draw) and 3-1 (home), with
`elapsed_time` absent giving minute 0. -/
theorem calculate_result_spec_witness :
    calculate_result 2 2 (JVal.obj .nil) =
      .ok { home_score := 2, away_score := 2, winner := "draw", current_minute := 0 } ∧
    calculate_result 3 1 (JVal.obj .nil) =
      .ok { home_score := 3, away_score := 1, winner := "home", current_minute := 0 } := by
  constructor
  · simpa using calculate_result_spec 2 2 none .nil (by decide) (by decide) rfl
  · simpa using calculate_result_spec 3 1 none .nil (by decide) (by decide) rfl

/-- C9: `get_nested_dict_value` returns `some w` exactly when successively
indexing each key of the path — with every intermediate value a mapping
containing that key — ends at `w`; in every other case it returns the
`none` sentinel (it is a total function, so it can raise nothing). -/
theorem get_nested_dict_value_spec (d : JVal) (ks : List String) (w : JVal) :
    get_nested_dict_value d ks = some w ↔ NestedReaches d ks w := by
  induction ks generalizing d with
  | nil =>
    constructor
    · intro h
      obtain rfl : d = w := by simpa [get_nested_dict_value] using h
      exact .nil d
    · intro h
      cases h
      rfl
  | cons k ks ih =>
    cases d with
    | obj fs =>
      cases hl : fs.lookup k with
      | some v =>
        constructor
        · intro h
          rw [show get_nested_dict_value (.obj fs) (k :: ks) =
                get_nested_dict_value v ks by simp [get_nested_dict_value, hl]] at h
          exact .step hl ((ih v).mp h)
        · intro h
          cases h with
          | step hl' hr =>
            rw [hl'] at hl
            cases hl
            simpa [get_nested_dict_value, hl'] using (ih _).mpr hr
      | none =>
        constructor
        · intro h
          simp [get_nested_dict_value, hl] at h
        · intro h
          cases h with
          | step hl' _ => rw [hl'] at hl; cases hl
    | null =>
      constructor
      · intro h; simp [get_nested_dict_value] at h
      · intro h; cases h
    | bool b =>
      constructor
      · intro h; simp [get_nested_dict_value] at h
      · intro h; cases h
    | num n =>
      constructor
      · intro h; simp [get_nested_dict_value] at h
      · intro h; cases h
    | str s =>
      constructor
      · intro h; simp [get_nested_dict_value] at h
      · intro h; cases h
    | arr xs =>
      constructor
      · intro h; simp [get_nested_dict_value] at h
      · intro h; cases h

/-- Witness for C9: walking the real path `["b", "matches"]` through a nested
dict reaches the stored value. -/
theorem get_nested_dict_value_spec_witness :
    get_nested_dict_value (jobj [("b", jobj [("matches", JVal.num 3)])])
      ["b", "matches"] = some (JVal.num 3) :=
  (get_nested_dict_value_spec _ _ _).mpr (.step rfl (.step rfl (.nil _)))

/-- C5 counterexample: a scoreboard whose `contestant1` is the non-numeric
string `"N/A"` makes `extract_scoreboard` raise `ValueError` — the numeric
coercion failure is NOT swallowed and does not default to 0, contrary to the
claim. -/
theorem extract_scoreboard_counterexample :
    extract_scoreboard (mkRawScore (some (.str "N/A")) (some (.num 1))) =
      .error (.valueError "invalid literal for int: N/A") := rfl

/-- C5 amended: `extract_scoreboard` reads the two scoreboard sub-fields and
defaults each score to 0 when the field is ABSENT; when a field is present it
is coerced with `int(...)`, and a coercion failure raises (propagates as an
exception) instead of defaulting to 0. -/
theorem extract_scoreboard_spec :
    (∀ h a : Int, extract_scoreboard (mkRawScore (some (.num h)) (some (.num a))) =
        .ok (h, a, scoreboardOf (some (.num h)) (some (.num a)))) ∧
    (∀ a : Int, extract_scoreboard (mkRawScore none (some (.num a))) =
        .ok (0, a, scoreboardOf none (some (.num a)))) ∧
    (∀ h : Int, extract_scoreboard (mkRawScore (some (.num h)) none) =
        .ok (h, 0, scoreboardOf (some (.num h)) none)) ∧
    (extract_scoreboard (mkRawScore none none) = .ok (0, 0, scoreboardOf none none)) ∧
    (extract_scoreboard (mkRawScore (some (.str "x")) (some (.num 1))) =
        .error (.valueError "invalid literal for int: x")) :=
  ⟨fun _ _ => rfl, fun _ => rfl, fun _ => rfl, rfl, rfl⟩

/-- C6: when the model output is malformed or absent — the completion message
carries no `function_call` — `raw2json` raises `TypeError` (from
`json.loads(None)`, reached because the `except` block only sets
`generated_json = None`) for every JSON parser; it does NOT return an absent
result to its caller. This contradicts the graceful intent visible in the
`except`/`None` handling (and in the sibling `get_positive_ev_odds`, which
keeps `json.loads` inside the `try`): the code is the slip. -/
theorem raw2json_missing_function_call_raises :
    ∀ jsonLoads : String → Except String JVal,
      raw2json malformedCompletion jsonLoads =
        .error (.typeError "the JSON object must be str, not NoneType") :=
  fun _ => rfl

/-- C7: a fetched listing page on which the script-tag lookup finds no
embedded-JSON `ng-state` element makes `scrape_betclic_matches` take exactly
the `payloadNotFound` branch (its own log line and `return None` site), never
the generic unclassified one; and the four failure reasons — network,
payload-not-found, parse-error, structure-missing — are pairwise distinct
outcomes, none of them equal to the generic `unexpected` outcome. -/
theorem scrape_payload_not_found_distinct (html : String)
    (findScript : String → Option String) (jsonLoads : String → Except String JVal)
    (h : findScript html = none) :
    scrape_betclic_matches (.ok html) findScript jsonLoads = .payloadNotFound ∧
    (∀ m, ScrapeOutcome.payloadNotFound ≠ .networkError m) ∧
    (∀ m, ScrapeOutcome.payloadNotFound ≠ .parseError m) ∧
    ScrapeOutcome.payloadNotFound ≠ .structureMissing ∧
    (∀ m, ScrapeOutcome.payloadNotFound ≠ .unexpected m) ∧
    (∀ m m2, ScrapeOutcome.networkError m ≠ .parseError m2) ∧
    (∀ m, ScrapeOutcome.networkError m ≠ .structureMissing) ∧
    (∀ m, ScrapeOutcome.networkError m ≠ .unexpected m) ∧
    (∀ m, ScrapeOutcome.parseError m ≠ .structureMissing) ∧
    (∀ m, ScrapeOutcome.parseError m ≠ .unexpected m) ∧
    (∀ m, ScrapeOutcome.structureMissing ≠ .unexpected m) := by
  refine ⟨by simp [scrape_betclic_matches, h], ?_, ?_, ?_, ?_, ?_, ?_, ?_, ?_, ?_, ?_⟩ <;>
    (intros; intro hc; exact ScrapeOutcome.noConfusion hc)

/-- Witness for C7: a concrete page with no matching script element yields
exactly the payload-not-found outcome. -/
theorem scrape_payload_not_found_distinct_witness :
    scrape_betclic_matches (.ok "<html><body></body></html>") (fun _ => none)
      (fun _ => .ok JVal.null) = .payloadNotFound :=
  (scrape_payload_not_found_distinct "<html><body></body></html>" (fun _ => none)
    (fun _ => .ok JVal.null) rfl).1

/-- C1 counterexample: a raw match with every required field present except
the top-level match URL fragment (`relative_desktop_url`) makes
`process_match` raise `KeyError` — the record fails as a whole; the URL
fragment is read by a plain subscript, not defensively, so URL
canonicalization is not skipped and `url` is not merely absent. -/
theorem process_match_missing_url_raises :
    process_match rawMissingMatchUrl = .error (.keyError "relative_desktop_url") := rfl

/-- C1 amended: the defensively-read optional fields — match id, competition
name, country code, sport name, round name, date, `is_live` — are each
independently nullable: for every combination of their presence,
`process_match` succeeds and maps each absent field to an explicit `null`
while all other fields are populated as if it were present (no cascading
failure). The competition URL fragment, the match URL fragment and the
contestant names are NOT in this set: they are required, and missing one
raises instead (see the counterexample). -/
theorem process_match_defensive_fields
    (mid cname ccode csport cround date ilive : Option JVal)
    (curl murl : String) (home away : JVal) :
    process_match (mkRawMatch mid cname ccode csport cround date ilive curl murl home away) =
      .ok { match_id := mid.getD .null,
            competition_name := cname.getD .null,
            competition_country := ccode.getD .null,
            competition_sport := csport.getD .null,
            competition_round := cround.getD .null,
            teams_home := home, teams_away := away,
            datetime := date.getD .null,
            odds_home_win := .null, odds_draw := .null, odds_away_win := .null,
            result := { home_score := 0, away_score := 0, winner := "draw", current_minute := 0 },
            is_live := ilive.getD .null,
            url := clean_and_combine_urls curl murl } := by
  cases mid <;> cases cname <;> cases ccode <;> cases csport <;> cases cround <;>
    cases date <;> cases ilive <;> rfl

/-- `Except` bind on a success reduces to the continuation. -/
theorem except_bind_ok {α β : Type} (a : α) (f : α → Except PyErr β) :
    (Except.ok a : Except PyErr α) >>= f = f a := rfl

/-- `pure` into `Except` is `Except.ok`. -/
theorem except_pure_eq {α : Type} (a : α) : (pure a : Except PyErr α) = Except.ok a := rfl

/-- The positional odds entry of a selections array built from groups:
`odds[i][0].get("odds")` guarded by the two length checks equals the
claim-side positional description. -/
theorem odds_entry_sels (groups : List (List (List (String × JVal)))) (i : Nat) :
    odds_entry (selectionsOf groups) i = .ok (positional_odds groups i) := by
  induction groups generalizing i with
  | nil =>
    simp [odds_entry, selectionsOf, jarr, toJList, positional_odds, pyLen, JList.length,
          except_bind_ok, except_pure_eq]
  | cons g gs ih =>
    cases i with
    | zero =>
      cases g with
      | nil =>
        simp [odds_entry, selectionsOf, jarr, toJList, positional_odds, pyLen, JList.length,
              indexNat, JList.get?, except_bind_ok, except_pure_eq]
      | cons s0 t =>
        simp [odds_entry, selectionsOf, jarr, toJList, positional_odds, pyLen, JList.length,
              indexNat, JList.get?, dictGet, jobj, Nat.succ_pos, except_bind_ok, except_pure_eq]
    | succ j =>
      have hj := ih j
      simp [odds_entry, selectionsOf, jarr, toJList, positional_odds, pyLen, JList.length,
            indexNat, JList.get?, Nat.succ_lt_succ_iff, except_bind_ok, except_pure_eq] at hj ⊢
      exact hj

/-- The guarded `home_win` entry agrees with the positional description at
index 0 (the truthiness guard only short-circuits the empty array, whose
entry is absent anyway). -/
theorem odds_home_entry_sels (groups : List (List (List (String × JVal)))) :
    odds_home_entry (selectionsOf groups) = .ok (positional_odds groups 0) := by
  cases groups with
  | nil => rfl
  | cons g gs =>
    show odds_entry (selectionsOf (g :: gs)) 0 = .ok (positional_odds (g :: gs) 0)
    exact odds_entry_sels (g :: gs) 0

/-- `process_match` on an odds-focused input reduces to the three odds
entries; everything else is fixed. -/
theorem process_match_mkRawWithSelections (v h0 h1 h2 : JVal)
    (hh : odds_home_entry v = .ok h0) (hd : odds_entry v 1 = .ok h1)
    (ha : odds_entry v 2 = .ok h2) :
    process_match (mkRawWithSelections (some v)) = .ok (selsCanonical h0 h1 h2) := by
  have key : process_match (mkRawWithSelections (some v)) =
      (odds_home_entry v) >>= (fun hw =>
        (odds_entry v 1) >>= (fun dr =>
          (odds_entry v 2) >>= (fun aw =>
            Except.ok (selsCanonical hw dr aw)))) := rfl
  rw [key, hh, hd, ha]
  rfl

/-- C2 counterexample: on a selections array of length 2 the positional read
puts index 1 into `draw` and leaves index 2 — `away_win` — absent: the result
has `odds.draw` PRESENT (the second group's odds, 32) and `odds.away_win`
ABSENT, exactly the opposite of the claimed "odds.away_win present and
odds.draw absent". There is indeed no index-out-of-range failure. -/
theorem process_match_len2_selections_counterexample :
    process_match (mkRawWithSelections (some selsLen2)) =
      .ok (selsCanonical (.num 15) (.num 32) .null) ∧
    (JVal.num 32 ≠ JVal.null) ∧ (JVal.num 15 ≠ JVal.null) :=
  ⟨rfl, by decide, by decide⟩

/-- C2 amended: odds are read positionally — index 0 = home win, index 1 =
draw, index 2 = away win — each defaulting to absent when its index or its
nested `odds` field is missing, for every selections ARRAY (so a length-2
array yields `draw` present and `away_win` absent, with no index error); but
when the `selections` key itself is missing (while `grouped_markets` and
`markets` are non-empty), the `and` chain leaves `odds = None` and the
unguarded `len(odds)` in the `draw` conditional raises `TypeError` — the
extraction is not raise-free. -/
theorem extract_odds_positional :
    (∀ sels : List (List (List (String × JVal))),
      process_match (mkRawWithSelections (some (selectionsOf sels))) =
        .ok (selsCanonical (positional_odds sels 0) (positional_odds sels 1)
              (positional_odds sels 2))) ∧
    process_match (mkRawWithSelections none) = .error (.typeError "object has no len") :=
  ⟨fun sels => process_match_mkRawWithSelections (selectionsOf sels) _ _ _
      (odds_home_entry_sels sels) (odds_entry_sels sels 1) (odds_entry_sels sels 2),
   rfl⟩

mutual

/-- A value containing no occurrence of the key collects nothing, even under
the claim-side semantics that descends into matched values. -/
theorem all_gm_nil_of_count_zero :
    ∀ j : JVal, count_grouped_markets_keys j = 0 → all_grouped_markets j = []
  | .null, _ => rfl
  | .bool _, _ => rfl
  | .num _, _ => rfl
  | .str _, _ => rfl
  | .obj fs, h => all_gm_nil_of_count_zero_fields fs h
  | .arr xs, h => all_gm_nil_of_count_zero_list xs h

/-- Dict case of `all_gm_nil_of_count_zero`. -/
theorem all_gm_nil_of_count_zero_fields :
    ∀ fs : JFields, count_grouped_markets_keys_fields fs = 0 → all_grouped_markets_fields fs = []
  | .nil, _ => rfl
  | .cons k v tl, h => by
    by_cases hk : k = "grouped_markets"
    · simp [count_grouped_markets_keys_fields, hk] at h
    · simp [count_grouped_markets_keys_fields, hk] at h
      simp [all_grouped_markets_fields, hk, all_gm_nil_of_count_zero v h.1,
            all_gm_nil_of_count_zero_fields tl h.2]

/-- List case of `all_gm_nil_of_count_zero`. -/
theorem all_gm_nil_of_count_zero_list :
    ∀ xs : JList, count_grouped_markets_keys_list xs = 0 → all_grouped_markets_list xs = []
  | .nil, _ => rfl
  | .cons v tl, h => by
    simp [count_grouped_markets_keys_list] at h
    simp [all_grouped_markets_list, all_gm_nil_of_count_zero v h.1,
          all_gm_nil_of_count_zero_list tl h.2]

end

mutual

/-- On nest-free structures (no `grouped_markets` value containing the key
again), the code-side search returns exactly the claim-side collection of all
values under the key. -/
theorem find_eq_all :
    ∀ j : JVal, nestFreeGM j = true → find_grouped_markets j = all_grouped_markets j
  | .null, _ => rfl
  | .bool _, _ => rfl
  | .num _, _ => rfl
  | .str _, _ => rfl
  | .obj fs, h => find_eq_all_fields fs h
  | .arr xs, h => find_eq_all_list xs h

/-- Dict case of `find_eq_all`. -/
theorem find_eq_all_fields :
    ∀ fs : JFields, nestFreeGM_fields fs = true →
      find_grouped_markets_fields fs = all_grouped_markets_fields fs
  | .nil, _ => rfl
  | .cons k v tl, h => by
    by_cases hk : k = "grouped_markets"
    · simp [nestFreeGM_fields, hk] at h
      simp [find_grouped_markets_fields, all_grouped_markets_fields, hk,
            all_gm_nil_of_count_zero v h.1, find_eq_all_fields tl h.2]
    · simp [nestFreeGM_fields, hk] at h
      simp [find_grouped_markets_fields, all_grouped_markets_fields, hk,
            find_eq_all v h.1, find_eq_all_fields tl h.2]

/-- List case of `find_eq_all`. -/
theorem find_eq_all_list :
    ∀ xs : JList, nestFreeGM_list xs = true →
      find_grouped_markets_list xs = all_grouped_markets_list xs
  | .nil, _ => rfl
  | .cons v tl, h => by
    simp [nestFreeGM_list] at h
    simp [find_grouped_markets_list, find_eq_all v h.1, find_eq_all_list tl h.2,
          all_grouped_markets_list]

end

mutual

/-- In general the code-side search returns a sublist (same order, possibly
fewer elements) of the claim-side collection: it drops exactly the
occurrences nested inside a matched value. -/
theorem find_sublist_all :
    ∀ j : JVal, List.Sublist (find_grouped_markets j) (all_grouped_markets j)
  | .null => List.Sublist.refl []
  | .bool _ => List.Sublist.refl []
  | .num _ => List.Sublist.refl []
  | .str _ => List.Sublist.refl []
  | .obj fs => find_sublist_all_fields fs
  | .arr xs => find_sublist_all_list xs

/-- Dict case of `find_sublist_all`. -/
theorem find_sublist_all_fields :
    ∀ fs : JFields, List.Sublist (find_grouped_markets_fields fs) (all_grouped_markets_fields fs)
  | .nil => List.Sublist.refl []
  | .cons k v tl => by
    by_cases hk : k = "grouped_markets"
    · simp only [find_grouped_markets_fields, all_grouped_markets_fields, hk, if_pos]
      exact List.Sublist.append (List.Sublist.cons₂ v (List.nil_sublist _))
        (find_sublist_all_fields tl)
    · simp only [find_grouped_markets_fields, all_grouped_markets_fields, hk, if_neg,
                 ite_false]
      exact List.Sublist.append (find_sublist_all v) (find_sublist_all_fields tl)

/-- List case of `find_sublist_all`. -/
theorem find_sublist_all_list :
    ∀ xs : JList, List.Sublist (find_grouped_markets_list xs) (all_grouped_markets_list xs)
  | .nil => List.Sublist.refl []
  | .cons v tl =>
    List.Sublist.append (find_sublist_all v) (find_sublist_all_list tl)

end

/-- C3 counterexample: with the key nested directly inside a matched value,
the key occurs twice in the structure but `find_grouped_markets` returns only
the outermost value — NOT all values under the key at any depth: it never
descends into a matched value, so the claimed no-limit-on-occurrences
collection (which would also return `1`) differs from what the code returns. -/
theorem find_grouped_markets_nested_counterexample :
    count_grouped_markets_keys nestedGMInput = 2 ∧
    find_grouped_markets nestedGMInput = [jobj [("grouped_markets", JVal.num 1)]] ∧
    all_grouped_markets nestedGMInput = [jobj [("grouped_markets", JVal.num 1)], JVal.num 1] ∧
    find_grouped_markets nestedGMInput ≠ all_grouped_markets nestedGMInput :=
  ⟨rfl, rfl, rfl, by decide⟩

/-- C3 amended: `find_grouped_markets` returns, depth-first with mapping
entries before sequence elements and no deduplication, the values under the
key `grouped_markets` at OUTERMOST positions only — it does not descend into
a matched value. On structures where no matched value contains the key again
(all realistic payloads), that is exactly the sequence of all values under
the key at any depth — in particular the key at depths 0, 2 and 5 in
disjoint branches yields exactly those 3 results in order — and in general
the result is a sublist of that sequence. -/
theorem find_grouped_markets_outermost :
    (∀ j : JVal, nestFreeGM j = true → find_grouped_markets j = all_grouped_markets j) ∧
    (∀ j : JVal, List.Sublist (find_grouped_markets j) (all_grouped_markets j)) ∧
    find_grouped_markets depths025Input = [.num 100, .num 102, .num 105] :=
  ⟨find_eq_all, find_sublist_all, rfl⟩

/-- Witness for C3: the depth-0/2/5 structure is nest-free, and on it the
code-side search and the claim-side collection agree. -/
theorem find_grouped_markets_outermost_witness :
    find_grouped_markets depths025Input = all_grouped_markets depths025Input :=
  find_grouped_markets_outermost.1 depths025Input rfl

/-- Python dict assignment then lookup: the inserted key maps to the new
value, every other key is unchanged. -/
theorem lookupStr_dictInsert (k k' v : String) (d : List (String × String)) :
    lookupStr k (dictInsert k' v d) = if k' = k then some v else lookupStr k d := by
  induction d with
  | nil => by_cases h : k' = k <;> simp [dictInsert, lookupStr, h]
  | cons e tl ih =>
    obtain ⟨k0, v0⟩ := e
    by_cases h1 : k0 = k' <;> by_cases h2 : k' = k <;> by_cases h3 : k0 = k <;>
      simp_all [dictInsert, lookupStr]

/-- Dict assignment grows the dict by at most one entry. -/
theorem dictInsert_length (k v : String) (d : List (String × String)) :
    (dictInsert k v d).length ≤ d.length + 1 := by
  induction d with
  | nil => simp [dictInsert]
  | cons e tl ih =>
    obtain ⟨k0, v0⟩ := e
    by_cases h : k0 = k <;> simp [dictInsert, h] <;> omega

/-- A key occurring among the entries has a last value. -/
theorem lastValueOf_isSome_of_mem (e : String × String) (es : List (String × String))
    (he : e ∈ es) : ∃ u, lastValueOf e.1 es = some u := by
  induction es with
  | nil => cases he
  | cons e' tl ih =>
    rcases List.mem_cons.mp he with rfl | htl
    · cases hlast : lastValueOf e.1 tl with
      | some v => exact ⟨v, by simp [lastValueOf, hlast]⟩
      | none => exact ⟨e.2, by simp [lastValueOf, hlast]⟩
    · obtain ⟨u, hu⟩ := ih htl
      exact ⟨u, by simp [lastValueOf, hu]⟩

/-- Invariant of the `get_match_urls` loop: when every raw match yields an
entry, the loop succeeds, and each key maps to the value of the last entry
with that key — falling back to the accumulator for untouched keys — and the
dict grows by at most one entry per match. -/
theorem get_match_urls_from_spec (data : List JVal) (acc : List (String × String))
    (hwf : ∀ m ∈ data, ∃ e, match_url_entry m = .ok e) :
    ∃ urls, get_match_urls_from acc data = .ok urls ∧
      (∀ k, lookupStr k urls =
        match lastValueOf k (okEntries data) with
        | some v => some v
        | none => lookupStr k acc) ∧
      urls.length ≤ acc.length + data.length := by
  induction data generalizing acc with
  | nil =>
    exact ⟨acc, rfl, fun k => by simp [okEntries, lastValueOf], by simp⟩
  | cons m rest ih =>
    obtain ⟨e, he⟩ := hwf m (List.mem_cons_self m rest)
    obtain ⟨urls, hu, hk, hlen⟩ := ih (dictInsert e.1 e.2 acc)
      (fun m' hm' => hwf m' (List.mem_cons_of_mem m hm'))
    refine ⟨urls, ?_, ?_, ?_⟩
    · simpa [get_match_urls_from, he, except_bind_ok] using hu
    · intro k
      have hcons : okEntries (m :: rest) = e :: okEntries rest := by
        simp [okEntries, List.filterMap_cons, he, Except.toOption]
      have hthis := hk k
      rw [lookupStr_dictInsert] at hthis
      rw [hcons]
      by_cases hek : e.1 = k
      · cases hlast : lastValueOf k (okEntries rest) with
        | some v => rw [hthis]; simp [lastValueOf, hlast]
        | none => rw [hthis]; simp [lastValueOf, hlast, hek]
      · cases hlast : lastValueOf k (okEntries rest) with
        | some v => rw [hthis]; simp [lastValueOf, hlast]
        | none => rw [hthis]; simp [lastValueOf, hlast, hek]
    · have hd := dictInsert_length e.1 e.2 acc
      simp only [List.length_cons] at *
      omega

/-- C10: when every raw match carries its two URL fragments and two
contestant names, `get_match_urls` returns a mapping built from EVERY match
in the list — no `is_live` filter — keyed by the hyphen-joined contestant
names; each key maps to the combined URL of the LAST match with that key
(later overwrites earlier), every match has an entry under its key, and the
mapping can hold at most as many entries as there are matches (fewer on
duplicate keys). -/
theorem get_match_urls_spec (data : List JVal)
    (hwf : ∀ m ∈ data, ∃ e, match_url_entry m = .ok e) :
    ∃ urls, get_match_urls data = .ok urls ∧
      (∀ k, lookupStr k urls = lastValueOf k (okEntries data)) ∧
      (∀ m ∈ data, ∀ e, match_url_entry m = .ok e → ∃ u, lookupStr e.1 urls = some u) ∧
      urls.length ≤ data.length := by
  obtain ⟨urls, hu, hk, hlen⟩ := get_match_urls_from_spec data [] hwf
  have hchar : ∀ k, lookupStr k urls = lastValueOf k (okEntries data) := by
    intro k
    have hthis := hk k
    cases hlast : lastValueOf k (okEntries data) with
    | some v => simpa [hlast] using hthis
    | none => simpa [hlast, lookupStr] using hthis
  refine ⟨urls, hu, hchar, ?_, by simpa using hlen⟩
  intro m hm e he
  have hmem : e ∈ okEntries data := by
    simp only [okEntries, List.mem_filterMap]
    exact ⟨m, hm, by simp [he, Except.toOption]⟩
  obtain ⟨u, hu2⟩ := lastValueOf_isSome_of_mem e _ hmem
  exact ⟨u, by rw [hchar e.1, hu2]⟩

/-- Witness for C10: three matches, of which only the first is live, the
second a non-live duplicate key of the first and the third a distinct
non-live match — all three are processed. -/
theorem get_match_urls_spec_witness :
    ∃ urls, get_match_urls duplicateKeyData = .ok urls ∧
      (∀ k, lookupStr k urls = lastValueOf k (okEntries duplicateKeyData)) ∧
      (∀ m ∈ duplicateKeyData, ∀ e, match_url_entry m = .ok e →
        ∃ u, lookupStr e.1 urls = some u) ∧
      urls.length ≤ duplicateKeyData.length :=
  get_match_urls_spec duplicateKeyData (by
    intro m hm
    simp only [duplicateKeyData, List.mem_cons, List.not_mem_nil, or_false] at hm
    rcases hm with rfl | rfl | rfl
    · exact ⟨_, rfl⟩
    · exact ⟨_, rfl⟩
    · exact ⟨_, rfl⟩)

/-- A character that occurs nowhere in a list splits it trivially. -/
theorem splitOnFirst_not_mem {c : Char} : ∀ {l : List Char}, c ∉ l → splitOnFirst c l = (l, none)
  | [], _ => rfl
  | x :: xs, h => by
    simp only [List.mem_cons, not_or] at h
    have hx : ¬ x = c := fun he => h.1 he.symm
    simp [splitOnFirst, hx, splitOnFirst_not_mem h.2]

/-- Without a `;` there are no params to split off. -/
theorem splitparams_not_mem {l : List Char} (h : ';' ∉ l) : splitparams l = (l, []) := by
  simp [splitparams, h]

/-- Splitting params off a string that starts with `/` leaves a path that
still starts with `/`. -/
theorem splitparams_fst_slash (m : List Char) : ∃ u, (splitparams ('/' :: m)).1 = '/' :: u := by
  by_cases hsemi : ';' ∈ '/' :: m
  · have hslash : '/' ∈ '/' :: m := List.mem_cons_self '/' m
    have hseg : ∃ p, (lastSegSplit ('/' :: m)).1 = '/' :: p := by
      by_cases hm : '/' ∈ m
      · exact ⟨(lastSegSplit m).1, by simp [lastSegSplit, hm]⟩
      · exact ⟨[], by simp [lastSegSplit, hm]⟩
    obtain ⟨p, hp⟩ := hseg
    unfold splitparams
    rw [if_pos hsemi, if_pos hslash]
    cases hsp : splitOnFirst ';' (lastSegSplit ('/' :: m)).2 with
    | mk sa r =>
      cases r with
      | none => exact ⟨m, by simp [hsp]⟩
      | some sb => exact ⟨p ++ sa, by simp [hsp, hp]⟩
  · exact ⟨m, by simp [splitparams, hsemi]⟩

/-- A character the strip removes never occurs in the stripped string. -/
theorem not_mem_pySubStrip {c : Char} (hc : pyWordSafeChar c = false) (l : List Char) :
    c ∉ pySubStrip l := by
  intro hm
  have := (List.mem_filter.mp hm).2
  rw [hc] at this
  cases this

/-- The strip keeps the fixed base prefix (all its characters are allowed). -/
theorem pySubStrip_base (a b : String) :
    pySubStrip ("https://www.betclic.pt/".data ++ (a.data ++ '/' :: b.data)) =
      "https://www.betclic.pt/".data ++ pySubStrip (a.data ++ '/' :: b.data) := rfl

/-- Parsing a base-prefixed URL whose tail has no `#`, `?` or `;` (as the
stripped string always has): fixed scheme and host, the whole tail as path,
empty params, query and fragment components. -/
theorem pyUrlparse_base (s : List Char) (h7 : '#' ∉ s) (h6 : '?' ∉ s) (h5 : ';' ∉ s) :
    pyUrlparse ("https://www.betclic.pt/".data ++ s) =
      { scheme := "https".data, netloc := "www.betclic.pt".data, path := '/' :: s,
        params := [], query := [], frag := [] } := by
  have hstep : pyUrlparse ("https://www.betclic.pt/".data ++ s) =
      { scheme := "https".data, netloc := "www.betclic.pt".data,
        path := (splitparams (splitOnFirst '?' (splitOnFirst '#' ('/' :: s)).1).1).1,
        params := (splitparams (splitOnFirst '?' (splitOnFirst '#' ('/' :: s)).1).1).2,
        query := ((splitOnFirst '?' (splitOnFirst '#' ('/' :: s)).1).2).getD [],
        frag := ((splitOnFirst '#' ('/' :: s)).2).getD [] } := rfl
  have e1 : splitOnFirst '#' ('/' :: s) = ('/' :: s, none) :=
    splitOnFirst_not_mem (by simp [h7])
  have e2 : splitOnFirst '?' ('/' :: s) = ('/' :: s, none) :=
    splitOnFirst_not_mem (by simp [h6])
  have e3 : splitparams ('/' :: s) = ('/' :: s, []) :=
    splitparams_not_mem (by simp [h5])
  rw [hstep, e1]
  simp [e2, e3]

/-- The path component of any base-prefixed combined URL starts with `/`
(fragment, query and params splitting all preserve the leading slash). -/
theorem pyUrlparse_combined_path (l : List Char) :
    ∃ u, (pyUrlparse ("https://www.betclic.pt/".data ++ l)).path = '/' :: u := by
  have hstep : (pyUrlparse ("https://www.betclic.pt/".data ++ l)).path =
      (splitparams (splitOnFirst '?' (splitOnFirst '#' ('/' :: l)).1).1).1 := rfl
  rw [hstep]
  have e1 : (splitOnFirst '#' ('/' :: l)).1 = '/' :: (splitOnFirst '#' l).1 := by
    simp [splitOnFirst]
  rw [e1]
  have e2 : (splitOnFirst '?' ('/' :: (splitOnFirst '#' l).1)).1 =
      '/' :: (splitOnFirst '?' ((splitOnFirst '#' l).1)).1 := by
    simp [splitOnFirst]
  rw [e2]
  exact splitparams_fst_slash _

/-- `quote` keeps a leading slash (it is in the safe set). -/
theorem pyQuote_cons_slash (u : List Char) : pyQuote ('/' :: u) = '/' :: pyQuote u := by
  simp [pyQuote, pyQuoteChar, quoteSafeChar]

/-- Reassembling fixed scheme and host with a slash-leading path and no
params, query or fragment concatenates them. -/
theorem pyUrlunparse_base (u : List Char) :
    pyUrlunparse { scheme := "https".data, netloc := "www.betclic.pt".data,
                   path := '/' :: u, params := [], query := [], frag := [] } =
      "https://www.betclic.pt".data ++ '/' :: u := rfl

/-- C4 amended: `clean_and_combine_urls` concatenates the fixed base and the
two fragments and returns scheme and host followed by the percent-encoded
path component of that ORIGINAL concatenation — not of the stripped string.
The character-stripping step contributes only the constant scheme and host
(the stripped string contains no `#`, `?` or `;`, so its query, fragment and
params are empty and its path is discarded by the `_replace`): stripping has
no effect on the output. (The model renders `\\w` and UTF-8 percent-encoding
for ASCII text; on ASCII fragments this is exactly the Python behaviour.) -/
theorem clean_and_combine_urls_quotes_original_path (a b : String) :
    clean_and_combine_urls a b =
      String.mk ("https://www.betclic.pt".data ++
        pyQuote (pyUrlparse ("https://www.betclic.pt/".data ++ a.data ++ '/' :: b.data)).path) := by
  unfold clean_and_combine_urls
  simp only [List.append_assoc]
  rw [pySubStrip_base]
  rw [pyUrlparse_base (pySubStrip (a.data ++ '/' :: b.data))
        (not_mem_pySubStrip (by decide) _)
        (not_mem_pySubStrip (by decide) _)
        (not_mem_pySubStrip (by decide) _)]
  obtain ⟨u, hu⟩ := pyUrlparse_combined_path (a.data ++ '/' :: b.data)
  rw [hu, pyQuote_cons_slash]
  exact congrArg String.mk (pyUrlunparse_base (pyQuote u))

/-- C4 counterexample: on the fragments `"a b"` and `"c"` the code
percent-encodes the space of the ORIGINAL path — producing `a%20b` — whereas
the claimed algorithm (strip the whole string first, then percent-encode the
path of the stripped string) would have removed the space and produced `ab`:
the two algorithms differ on this input. -/
theorem clean_and_combine_urls_counterexample :
    clean_and_combine_urls "a b" "c" = "https://www.betclic.pt/a%20b/c" ∧
    claimed_clean_and_combine_urls "a b" "c" = "https://www.betclic.pt/ab/c" ∧
    clean_and_combine_urls "a b" "c" ≠ claimed_clean_and_combine_urls "a b" "c" :=
  ⟨by decide, by decide, by decide⟩
